import Mathlib

/-!
Verification of the numeric-formatting engine of the `etop` repository.

The renderer `format` in `crates/toolstr/src/format_num/interface.rs` is
embedded below as `renderOpt` (and `renderPattern` for textual patterns).
Strings are modelled as lists of characters (`Str`); the byte-oriented
`.len()` calls and byte slicing of the Rust code are modelled through
`byteLen` and `splitAtByte`.  A finite `f64` input is modelled in
sign-magnitude form as `F64`: a sign bit together with the exact magnitude
`num / den` (every finite double has this shape).  All definitions are
executable, so concrete runs of the renderer are settled by `decide`.

Helpers of the renderer that live in the repository but outside the given
sources (`format_num/types.rs` and `format_num/process.rs`) are modelled
from the specification; each such definition carries a doc comment
starting with `Modelled from the spec:`.
-/

namespace Etop

/-- Strings are modelled as lists of characters. -/
abbrev Str := List Char

/-- Number of bytes of the UTF-8 encoding of a character. -/
def utf8Len (c : Char) : ℕ :=
  if c.toNat < 128 then 1
  else if c.toNat < 2048 then 2
  else if c.toNat < 65536 then 3
  else 4

/-- Byte length of a string, as Rust's `str::len` computes it. -/
def byteLen (s : Str) : ℕ := (s.map utf8Len).sum

/-- A finite `f64` in sign-magnitude form: `is_sign_negative()` is `neg`,
and `abs()` is the exact rational `num / den` (`den` is positive for a
genuine float; theorems assume `0 < den` where it matters). -/
structure F64 where
  neg : Bool
  num : ℕ
  den : ℕ
deriving DecidableEq, Repr

/-- The real value of a modelled float (used in theorem statements only). -/
def F64.val (x : F64) : ℚ :=
  if x.neg then -((x.num : ℚ) / (x.den : ℚ)) else (x.num : ℚ) / (x.den : ℚ)

/-- The resolved format specifier, mirroring `FormatSpec` of
`format_num/types.rs` field by field (optional fields stay optional; the
parser resolves defaults, see `parseSpec`). -/
structure FormatSpec where
  fill : Option Char
  align : Option String
  sign : Option String
  symbol : Option String
  zero : Bool
  width : Option ℕ
  grouping : Option String
  precision : Option ℕ
  format_type : Option String
deriving DecidableEq, Repr

/-- Modelled from the spec: `DECIMAL_CHAR` of `format_num/types.rs`, the
decimal point character. -/
def DECIMAL_CHAR : Char := '.'

/-- Little-endian base-`b` digit list of `n`, with explicit fuel so that
the definition is structurally recursive (kernel-computable). -/
def digitsRev (b : ℕ) : ℕ → ℕ → List ℕ
  | 0, _ => []
  | fuel + 1, n => if n = 0 then [] else n % b :: digitsRev b fuel (n / b)

/-- Digit character for one base-`b` digit, optionally uppercase. -/
def digitChar (upper : Bool) (d : ℕ) : Char :=
  if d < 10 then Char.ofNat (48 + d)
  else if upper then Char.ofNat (55 + d) else Char.ofNat (87 + d)

/-- Render `n` in base `b`, as Rust's radix formatting does (zero is "0"). -/
def toBaseStr (b : ℕ) (upper : Bool) (n : ℕ) : Str :=
  if n = 0 then ['0'] else ((digitsRev b n n).map (digitChar upper)).reverse

/-- Decimal rendering of a natural number. -/
def natDec (n : ℕ) : Str := toBaseStr 10 false n

/-- Round `a / b` to the nearest integer, ties to even — the rounding Rust
fixed-point formatting applies to a nonnegative value. -/
def rheN (a b : ℕ) : ℕ :=
  let f := a / b
  let r := a % b
  if 2 * r < b then f
  else if b < 2 * r then f + 1
  else if f % 2 = 0 then f else f + 1

/-- Fixed-point rendering of the nonnegative value `a / b` with `p` digits
after the decimal point, as Rust's `{:.p}` float formatting produces it
(correct rounding of the exact value, ties to even; no point if `p = 0`). -/
def fixedRender (a b p : ℕ) : Str :=
  let n := rheN (a * 10 ^ p) b
  let ip := n / 10 ^ p
  let fp := n % 10 ^ p
  natDec ip ++
    (if p = 0 then []
     else DECIMAL_CHAR :: (List.replicate (p - (natDec fp).length) '0' ++ natDec fp))

/-- Truncation of the nonnegative value `a / b` by Rust's `as i64` cast
(truncates toward zero, saturating at `i64::MAX`). -/
def truncSat (a b : ℕ) : ℕ := min (a / b) (2 ^ 63 - 1)

/-- Floor of log base `b` of `n / d` (for positive inputs), via digit
counts; only used for choosing the printed exponent. -/
def ilogFrac (b n d : ℕ) : ℤ :=
  if d ≤ n then ((digitsRev b (n / d) (n / d)).length - 1 : ℕ)
  else
    let k : ℕ := (digitsRev b (d / n) (d / n)).length - 1
    if d ≤ n * b ^ k then -(k : ℤ) else -(k + 1 : ℕ)

/-- Modelled from the spec: `get_formatted_exp_value` of
`format_num/process.rs`.  Scientific notation of the nonnegative value
`n / d`: mantissa rendered fixed-point with `p` fractional digits, the
exponent letter (case given by the type), and the decimal exponent with a
minus sign when negative; the alternate form forces a trailing decimal
point when `p = 0`. -/
def expRender (letter : Char) (n d p : ℕ) (alt : Bool) : Str :=
  let e : ℤ := if n = 0 then 0 else ilogFrac 10 n d
  let mant : Str :=
    if 0 ≤ e then fixedRender n (d * 10 ^ e.toNat) p
    else fixedRender (n * 10 ^ (-e).toNat) d p
  mant ++ (if alt ∧ p = 0 then [DECIMAL_CHAR] else []) ++ [letter] ++
    (if e < 0 then ['-'] else []) ++ natDec e.natAbs

/-- Modelled from the spec: the fixed SI-prefix table `PREFIXES` of
`format_num/types.rs`, indexed with offset 8 ("no prefix" at index 8). -/
def PREFIXES : List Str :=
  [['y'], ['z'], ['a'], ['f'], ['p'], ['n'], ['µ'], ['m'], [],
   ['k'], ['M'], ['G'], ['T'], ['P'], ['E'], ['Z'], ['Y']]

/-- Does `1000 ^ k ≤ n / d` hold?  Stated on the numerator/denominator so
that it is kernel-computable. -/
def siCond (k : ℤ) (n d : ℕ) : Bool :=
  if 0 ≤ k then 1000 ^ k.toNat * d ≤ n else d ≤ n * 1000 ^ (-k).toNat

/-- Search for the largest `k ∈ [-8, fuel - 8]` with `1000 ^ k ≤ n / d`,
returning `-8` when there is none (the low clamp). -/
def siExpAux (n d : ℕ) : ℕ → ℤ
  | 0 => -8
  | fuel + 1 => if siCond ((fuel : ℤ) - 7) n d then (fuel : ℤ) - 7 else siExpAux n d fuel

/-- Modelled from the spec: the power-of-1000 bucket chosen for the SI
type — the largest `k ∈ [-8, 8]` with `1000 ^ k ≤ n / d`, clamped to the
inclusive range of the prefix table. -/
def siExp (n d : ℕ) : ℤ := siExpAux n d 16

/-- Modelled from the spec: `format_si_prefix` of `format_num/process.rs`.
Scales the magnitude `n / d` into its power-of-1000 bucket, renders the
scaled mantissa fixed-point with the configured precision (default 6), and
returns the chosen bucket exponent. -/
def formatSi (n d : ℕ) (p : Option ℕ) : Str × ℤ :=
  let k := siExp n d
  let mant :=
    if 0 ≤ k then fixedRender n (d * 1000 ^ k.toNat) (p.getD 6)
    else fixedRender (n * 1000 ^ (-k).toNat) d (p.getD 6)
  (mant, k)

/-- One step of the grouping loop: take the next (up to `g`-character)
chunk off the right end of the digit run. -/
def groupAux (v : Str) (w : ℕ) : ℕ → ℕ → ℕ → List Str → List Str
  | 0, _, _, acc => acc
  | fuel + 1, i, len, acc =>
    if i = 0 then acc
    else
      let g : ℕ := if 0 < w ∧ w < len + 3 + 1 then max 1 (w - len) else 3
      let chunk := (v.take i).drop (i - g)
      let acc2 := chunk :: acc
      let len2 := len + g + 1
      if 0 < w ∧ w < len2 then acc2 else groupAux v w fuel (i - g) len2 acc2

/-- Modelled from the spec: `group_value` of `format_num/process.rs`.
Inserts a thousands separator every three digits from the right; when a
positive width cap `w` is given (the zero-fill path), the leading group is
shrunk and the walk stops so that the separators land inside the
zero-padding within the width budget (`w = 0` means no cap). -/
def groupValue (v : Str) (w : ℕ) : Str :=
  List.intercalate [','] (groupAux v w v.length v.length 0 [])

/-- Models `value.parse::<f64>().unwrap() == 0_f64` on a rendered numeric
text: `none` when the text is not a valid Rust float literal (the unwrap
panics), otherwise whether the parsed value is exactly zero — i.e. whether
every mantissa digit is `'0'` (the exponent cannot make a nonzero decimal
mantissa zero, nor a zero one nonzero). -/
def parseZero? (s : Str) : Option Bool :=
  let s1 := match s with
    | '-' :: t => t
    | '+' :: t => t
    | t => t
  let mant := s1.takeWhile (fun c => c ≠ 'e' ∧ c ≠ 'E')
  let rest := s1.dropWhile (fun c => c ≠ 'e' ∧ c ≠ 'E')
  let expOk : Bool := match rest with
    | [] => true
    | _ :: '-' :: ds => ds ≠ [] ∧ ds.all Char.isDigit
    | _ :: '+' :: ds => ds ≠ [] ∧ ds.all Char.isDigit
    | _ :: ds => ds ≠ [] ∧ ds.all Char.isDigit
  let ip := mant.takeWhile Char.isDigit
  let mrest := mant.dropWhile Char.isDigit
  let mantOk : Bool := match mrest with
    | [] => ip ≠ []
    | '.' :: fp => (ip ≠ [] ∨ fp ≠ []) ∧ fp.all Char.isDigit
    | _ => false
  if mantOk ∧ expOk then
    some (mant.all (fun c => c = '0' ∨ c = '.'))
  else none

/-- Modelled from the spec: `get_sign_prefix` of `format_num/process.rs`
(step 4 of the rendering algorithm): `-` if negative, else `+` under the
`Always` policy, a space under `SpaceForPositive`, nothing otherwise. -/
def signGlyph (neg : Bool) (s : FormatSpec) : Str :=
  if neg then ['-']
  else if s.sign = some "+" then ['+']
  else if s.sign = some " " then [' ']
  else []

/-- The radix prefix chosen by `format` (interface.rs lines 82–92). -/
def leadingPart (s : FormatSpec) : Str :=
  if s.symbol = some "#" then
    if s.format_type = some "b" then ['0', 'b']
    else if s.format_type = some "o" then ['0', 'o']
    else if s.format_type = some "x" then ['0', 'x']
    else if s.format_type = some "O" then ['0', 'O']
    else if s.format_type = some "X" then ['0', 'x']
    else []
  else []

/-- The type-specific core conversion of `format` (interface.rs lines
22–68), producing the numeric text and the SI-prefix letter ("" unless the
type is `s`).  Branch order mirrors the Rust `match`; `none` models a
panicking `unwrap()` of an absent precision. -/
def coreVal (s : FormatSpec) (x : F64) : Option (Str × Str) :=
  if s.format_type = some "%" then
    (s.precision).map (fun p => (fixedRender (x.num * 100) x.den p, []))
  else if s.format_type = some "b" then
    some (toBaseStr 2 false (truncSat x.num x.den), [])
  else if s.format_type = some "o" ∨ s.format_type = some "O" then
    some (toBaseStr 8 false (truncSat x.num x.den), [])
  else if s.format_type = some "x" then
    some (toBaseStr 16 false (truncSat x.num x.den), [])
  else if s.format_type = some "X" then
    some (toBaseStr 16 true (truncSat x.num x.den), [])
  else if s.format_type = some "f" ∧ s.symbol.getD "" = "#" then
    (s.precision).map (fun p =>
      (fixedRender x.num x.den p ++ (if p = 0 then [DECIMAL_CHAR] else []), []))
  else if s.format_type = some "e" then
    (s.precision).map (fun p =>
      (expRender 'e' x.num x.den p (s.symbol.getD "" = "#"), []))
  else if s.format_type = some "E" then
    (s.precision).map (fun p =>
      (expRender 'E' x.num x.den p (s.symbol.getD "" = "#"), []))
  else if s.format_type = some "s" then
    let vk := formatSi x.num x.den s.precision
    (PREFIXES.get? (8 + vk.2).toNat).map (fun letter => (vk.1, letter))
  else
    (s.precision).map (fun p => (fixedRender x.num x.den p, []))

/-- The zero-after-rounding sign suppression of `format` (interface.rs
lines 70–78): whether the value is still treated as negative afterwards.
The parse (a panicking `unwrap`, hence `Option`) runs only when the
short-circuit guard reaches it. -/
def suppressedNeg (s : FormatSpec) (x : F64) (v : Str) : Option Bool :=
  if s.format_type ≠ some "x" ∧ s.format_type ≠ some "X" ∧ x.neg then
    (parseZero? v).map (fun z =>
      if z = true ∧ s.sign.getD "+" ≠ "+" then false else x.neg)
  else some x.neg

/-- The renderer up to (and including) the pre-padding grouping step:
prefix (sign glyph plus radix prefix), value part, and suffix (decimal
part, SI letter, percent glyph), mirroring interface.rs lines 12–114. -/
def stage1 (s : FormatSpec) (x : F64) : Option (Str × Str × Str) := do
  let vsi ← coreVal s x
  let negAfter ← suppressedNeg s x vsi.1
  let unit : Str := if s.format_type = some "%" then ['%'] else []
  let intPart := vsi.1.takeWhile Char.isDigit
  let decimalPart := vsi.1.dropWhile Char.isDigit
  let pre := signGlyph negAfter s ++ leadingPart s
  let suf := decimalPart ++ vsi.2 ++ unit
  let value := if s.grouping.isSome ∧ s.zero = false then groupValue intPart 0 else intPart
  pure (pre, value, suf)

/-- Split a string at a byte offset, as Rust's `&s[..k]` / `&s[k..]` do:
`none` models the panic when `k` is not a character boundary. -/
def splitAtByte : ℕ → Str → Option (Str × Str)
  | 0, l => some ([], l)
  | _ + 1, [] => none
  | k + 1, c :: t =>
    if utf8Len c ≤ k + 1 then
      (splitAtByte (k + 1 - utf8Len c) t).map (fun ab => (c :: ab.1, ab.2))
    else none

/-- Final assembly by alignment (interface.rs lines 137–149); the center
case slices the padding at half its byte length, panicking (`none`) off a
character boundary. -/
def assemble (a : Option String) (pre v suf pad : Str) : Option Str :=
  if a = some "<" then some (pre ++ v ++ suf ++ pad)
  else if a = some "=" then some (pre ++ pad ++ v ++ suf)
  else if a = some "^" then
    (splitAtByte (byteLen pad / 2) pad).map (fun lr => lr.1 ++ pre ++ v ++ suf ++ lr.2)
  else some (pad ++ pre ++ v ++ suf)

/-- The full renderer `format` of interface.rs for one resolved specifier
and one finite input; `none` models a panic. -/
def renderOpt (s : FormatSpec) (x : F64) : Option Str := do
  let pvs ← stage1 s x
  let w ← s.width
  let f ← s.fill
  let len := byteLen pvs.1 + byteLen pvs.2.1 + byteLen pvs.2.2
  let padding := if len < w then List.replicate (w - len) f else []
  if s.grouping.isSome ∧ s.zero then
    let t ← if padding ≠ [] then
        (if byteLen pvs.2.2 ≤ w then some (w - byteLen pvs.2.2) else none)
      else some 0
    assemble s.align pvs.1 (groupValue (padding ++ pvs.2.1) t) pvs.2.2 []
  else
    assemble s.align pvs.1 pvs.2.1 pvs.2.2 padding

/-- Numeric value of a run of decimal digit characters. -/
def digitsToNat (s : Str) : ℕ := s.foldl (fun a c => 10 * a + (c.toNat - 48)) 0

/-- The alignment characters of the mini-language. -/
def isAlignChar (c : Char) : Bool := c = '<' ∨ c = '>' ∨ c = '=' ∨ c = '^'

/-- The type characters the parser recognizes. -/
def recognizedType (c : Char) : Bool :=
  c ∈ ['%', 'b', 'o', 'O', 'x', 'X', 'e', 'E', 'f', 's', 'd', 'g', 'G', 'n']

/-- Type-specific default precision (spec section 4.1): 0 for the integer
radix types, 1 for the percent type, 6 otherwise. -/
def defaultPrecision (t : Option Char) : ℕ :=
  match t with
  | some 'b' | some 'o' | some 'O' | some 'x' | some 'X' => 0
  | some '%' => 1
  | _ => 6

/-- Modelled from the spec: the specifier parser of `format_num/types.rs`
(grammar of spec section 4.1, defaults of section 3).  Consumes
`[[fill]align][sign][#][0][width][,][.precision][type]` left to right
(`align` is recognized alone or preceded by one non-alignment fill
character), rejects anything else, and resolves every field: fill space,
sign NegativeOnly (`-`), width 0, type-dependent precision; a zero flag
sets fill `0` and sign-aware alignment. -/
def parseSpec (pat : Str) : Option FormatSpec :=
  let fa : Option Char × Option String × Str :=
    match pat with
    | c1 :: c2 :: rest =>
      if isAlignChar c2 ∧ ¬ isAlignChar c1 then (some c1, some (String.mk [c2]), rest)
      else if isAlignChar c1 then (none, some (String.mk [c1]), c2 :: rest)
      else (none, none, pat)
    | [c1] => if isAlignChar c1 then (none, some (String.mk [c1]), []) else (none, none, pat)
    | [] => (none, none, [])
  let sg : Option String × Str :=
    match fa.2.2 with
    | c :: rest =>
      if c = '+' ∨ c = '-' ∨ c = ' ' then (some (String.mk [c]), rest) else (none, fa.2.2)
    | [] => (none, [])
  let sy : Option String × Str :=
    match sg.2 with
    | '#' :: rest => (some "#", rest)
    | _ => (none, sg.2)
  let zr : Bool × Str :=
    match sy.2 with
    | '0' :: rest => (true, rest)
    | _ => (false, sy.2)
  let wd := zr.2.takeWhile Char.isDigit
  let r5 := zr.2.dropWhile Char.isDigit
  let gp : Option String × Str :=
    match r5 with
    | ',' :: rest => (some ",", rest)
    | _ => (none, r5)
  let pr : Option (Option ℕ × Str) :=
    match gp.2 with
    | '.' :: rest =>
      if rest.takeWhile Char.isDigit = [] then none
      else some (some (digitsToNat (rest.takeWhile Char.isDigit)), rest.dropWhile Char.isDigit)
    | other => some (none, other)
  pr.bind (fun prr =>
    (match prr.2 with
     | [] => some none
     | [c] => if recognizedType c then some (some c) else none
     | _ => none).map (fun t =>
      { fill := some (if zr.1 then '0' else fa.1.getD ' ')
        align := if zr.1 then some "=" else fa.2.1
        sign := some ((sg.1).getD "-")
        symbol := sy.1
        zero := zr.1
        width := some (if wd = [] then 0 else digitsToNat wd)
        grouping := gp.1
        precision := some (prr.1.getD (defaultPrecision t))
        format_type := t.map (fun c => String.mk [c]) }))

/-- Render a number against a textual pattern: parse, then render
(`format` of interface.rs, its specifier obtained via `pattern.into()`). -/
def renderPattern (pat : Str) (x : F64) : Option Str :=
  (parseSpec pat).bind (fun s => renderOpt s x)

/-! ## Column cell formats (`crates/etop/src/types/formats/cell_format.rs`) -/

/-- Modelled from the spec: the `toolstr::FormatType` variants the cell
layer selects between when resolving an unknown format. -/
inductive FormatType where
  | decimal
  | exponent
  | percentage
  | si
deriving DecidableEq, Repr

/-- Modelled from the spec: `toolstr::NumberFormat` — a numeric formatter
choice with the shared width constraints (the fields the cell layer
touches: `min_width`, `max_width`, and the type/precision setters). -/
structure NumberFormat where
  format_type : FormatType
  precision : ℕ
  min_width : ℕ
  max_width : ℕ
deriving DecidableEq, Repr

/-- The builder setter `NumberFormat::format_type`. -/
def NumberFormat.withFormatType (f : NumberFormat) (t : FormatType) : NumberFormat :=
  { f with format_type := t }

/-- The builder setter `NumberFormat::precision`. -/
def NumberFormat.withPrecision (f : NumberFormat) (p : ℕ) : NumberFormat :=
  { f with precision := p }

/-- Modelled from the spec: `toolstr::StringFormat` (width constraints). -/
structure StringFormat where
  min_width : ℕ
  max_width : ℕ
deriving DecidableEq, Repr

/-- Modelled from the spec: `toolstr::BinaryFormat` (width constraints). -/
structure BinaryFormat where
  min_width : ℕ
  max_width : ℕ
deriving DecidableEq, Repr

/-- Modelled from the spec: `toolstr::BoolFormat` (width constraints). -/
structure BoolFormat where
  min_width : ℕ
  max_width : ℕ
deriving DecidableEq, Repr

/-- Modelled from the spec: `UnknownFormat` — the unresolved variant that
carries only the shared width constraints until a data type is known. -/
structure UnknownFormat where
  min_width : ℕ
  max_width : ℕ
deriving DecidableEq, Repr

/-- Modelled from the spec: `From<UnknownFormat> for NumberFormat` —
carries the width constraints over, other fields defaulted. -/
def UnknownFormat.toNumber (u : UnknownFormat) : NumberFormat :=
  { format_type := FormatType.exponent, precision := 6,
    min_width := u.min_width, max_width := u.max_width }

/-- Modelled from the spec: `From<UnknownFormat> for StringFormat`. -/
def UnknownFormat.toString (u : UnknownFormat) : StringFormat :=
  { min_width := u.min_width, max_width := u.max_width }

/-- Modelled from the spec: `From<UnknownFormat> for BinaryFormat`. -/
def UnknownFormat.toBinary (u : UnknownFormat) : BinaryFormat :=
  { min_width := u.min_width, max_width := u.max_width }

/-- Modelled from the spec: `From<UnknownFormat> for BoolFormat`. -/
def UnknownFormat.toBool (u : UnknownFormat) : BoolFormat :=
  { min_width := u.min_width, max_width := u.max_width }

/-- The polars data types the cell layer can meet (the variants `finalize`
distinguishes, plus representatives of the unsupported remainder). -/
inductive DataType where
  | utf8
  | boolean
  | binary
  | int8 | int16 | int32 | int64
  | uint8 | uint16 | uint32 | uint64
  | float32 | float64
  | date | time | null
deriving DecidableEq, Repr

/-- `polars DataType::is_integer`. -/
def DataType.isInteger : DataType → Bool
  | .int8 | .int16 | .int32 | .int64 | .uint8 | .uint16 | .uint32 | .uint64 => true
  | _ => false

/-- `polars DataType::is_float`. -/
def DataType.isFloat : DataType → Bool
  | .float32 | .float64 => true
  | _ => false

/-- The error type of the etop crate (the variants this layer produces). -/
inductive EtopError where
  | mismatchedFormatType (msg : String)
  | unsupportedDatatype (msg : String)
deriving DecidableEq, Repr

/-- `CellFormatShorthand`: a formatter choice per semantic kind, possibly
still unresolved. -/
inductive CellFormatShorthand where
  | number (f : NumberFormat)
  | binary (f : BinaryFormat)
  | string (f : StringFormat)
  | bool (f : BoolFormat)
  | unknown (f : UnknownFormat)
deriving DecidableEq, Repr

/-- `CellFormat`: a resolved formatter choice per semantic kind. -/
inductive CellFormat where
  | number (f : NumberFormat)
  | binary (f : BinaryFormat)
  | string (f : StringFormat)
  | bool (f : BoolFormat)
deriving DecidableEq, Repr

/-- `CellFormatShorthand::finalize` (cell_format.rs lines 76–105). -/
def CellFormatShorthand.finalize (sh : CellFormatShorthand) (dtype : DataType) :
    Except EtopError CellFormat :=
  match sh with
  | .number f => .ok (.number f)
  | .binary f => .ok (.binary f)
  | .string f => .ok (.string f)
  | .bool f => .ok (.bool f)
  | .unknown f =>
    match dtype with
    | .utf8 => .ok (.string f.toString)
    | .boolean => .ok (.bool f.toBool)
    | .binary => .ok (.binary f.toBinary)
    | d =>
      if d.isInteger then
        .ok (.number ((f.toNumber.withFormatType FormatType.decimal).withPrecision 0))
      else if d.isFloat then
        .ok (.number (f.toNumber.withFormatType FormatType.exponent))
      else
        .error (.unsupportedDatatype ("Unsupported datatype: " ++ reprStr d))

/-- `TryInto<NumberFormat> for CellFormat` (cell_format.rs lines 154–165). -/
def CellFormat.tryIntoNumber : CellFormat → Except EtopError NumberFormat
  | .number f => .ok f
  | _ => .error (.mismatchedFormatType "not a NumberFormat")

/-- `TryInto<StringFormat> for CellFormat` (cell_format.rs lines 167–178). -/
def CellFormat.tryIntoString : CellFormat → Except EtopError StringFormat
  | .string f => .ok f
  | _ => .error (.mismatchedFormatType "not a StringFormat")

/-- `TryInto<BinaryFormat> for CellFormat` (cell_format.rs lines 180–191). -/
def CellFormat.tryIntoBinary : CellFormat → Except EtopError BinaryFormat
  | .binary f => .ok f
  | _ => .error (.mismatchedFormatType "not a BinaryFormat")

/-- `TryInto<BoolFormat> for CellFormat` (cell_format.rs lines 193–204). -/
def CellFormat.tryIntoBool : CellFormat → Except EtopError BoolFormat
  | .bool f => .ok f
  | _ => .error (.mismatchedFormatType "not a BoolFormat")

/-- Specifier produced by parsing a `.{p}s` pattern: SI type with
precision `p`, everything else at its default. -/
def siSpec (p : ℕ) : FormatSpec :=
  { fill := some ' ', align := none, sign := some "-", symbol := none, zero := false,
    width := some 0, grouping := none, precision := some p, format_type := some "s" }

/-- Specifier produced by parsing the pattern `é^4.0f`: fill `é`, center
alignment, width 4, precision 0, fixed type — a well-formed resolved
specifier whose fill character is two bytes long in UTF-8. -/
def eCenterSpec : FormatSpec :=
  { fill := some 'é', align := some "^", sign := some "-", symbol := none, zero := false,
    width := some 4, grouping := none, precision := some 0, format_type := some "f" }

/-- Specifier produced by parsing the pattern `08,.0f`: zero-filled,
grouped, width 8, precision 0, fixed type. -/
def zgSpec : FormatSpec :=
  { fill := some '0', align := some "=", sign := some "-", symbol := none, zero := true,
    width := some 8, grouping := some ",", precision := some 0, format_type := some "f" }

/-- Specifier produced by parsing the pattern `.0f`: fixed type with
precision 0, everything else at its default. -/
def f0Spec : FormatSpec :=
  { fill := some ' ', align := none, sign := some "-", symbol := none, zero := false,
    width := some 0, grouping := none, precision := some 0, format_type := some "f" }

/-- Specifier produced by parsing the pattern `b`: binary type. -/
def bSpec : FormatSpec :=
  { fill := some ' ', align := none, sign := some "-", symbol := none, zero := false,
    width := some 0, grouping := none, precision := some 0, format_type := some "b" }

/-- Specifier produced by parsing the pattern `x`: hex type. -/
def xSpec : FormatSpec :=
  { fill := some ' ', align := none, sign := some "-", symbol := none, zero := false,
    width := some 0, grouping := none, precision := some 0, format_type := some "x" }

/-- Specifier produced by parsing the pattern `#O`: alternate form,
uppercase-octal type. -/
def hashOSpec : FormatSpec :=
  { fill := some ' ', align := none, sign := some "-", symbol := some "#", zero := false,
    width := some 0, grouping := none, precision := some 0, format_type := some "O" }

/-- Specifier produced by parsing the pattern `#o`: alternate form,
octal type. -/
def hashoSpec : FormatSpec :=
  { fill := some ' ', align := none, sign := some "-", symbol := some "#", zero := false,
    width := some 0, grouping := none, precision := some 0, format_type := some "o" }

/-- Whether `finalize` accepts this data type (one of the variants it
resolves, or an integer or float type). -/
def DataType.cellSupported (d : DataType) : Bool :=
  d = .utf8 ∨ d = .boolean ∨ d = .binary ∨ d.isInteger ∨ d.isFloat

/-! ## Theorems -/

theorem byteLen_append (a b : Str) : byteLen (a ++ b) = byteLen a + byteLen b := by
  simp [byteLen]

theorem byteLen_replicate (n : ℕ) (c : Char) :
    byteLen (List.replicate n c) = n * utf8Len c := by
  simp [byteLen, List.map_replicate, List.sum_replicate, smul_eq_mul]

theorem splitAtByte_append {k : ℕ} {l a b : Str}
    (h : splitAtByte k l = some (a, b)) : a ++ b = l := by
  induction l generalizing k a b with
  | nil =>
    cases k with
    | zero => simp [splitAtByte] at h; simp [h.1, h.2]
    | succ k => simp [splitAtByte] at h
  | cons c t ih =>
    cases k with
    | zero => simp [splitAtByte] at h; simp [h.1, h.2]
    | succ k =>
      simp only [splitAtByte] at h
      by_cases hc : utf8Len c ≤ k + 1
      · rw [if_pos hc] at h
        rcases Option.map_eq_some'.mp h with ⟨ab, hab, heq⟩
        cases heq
        simpa using ih hab
      · rw [if_neg hc] at h; cases h

/-- C9: converting a `CellFormat` to a specific kind view succeeds with the
contained format exactly when the `CellFormat` is the matching variant,
and on every other variant it fails with a `MismatchedFormatType` error. -/
theorem c9_try_into_views (cf : CellFormat) :
    (∀ f, cf.tryIntoNumber = .ok f ↔ cf = .number f) ∧
    (∀ f, cf.tryIntoString = .ok f ↔ cf = .string f) ∧
    (∀ f, cf.tryIntoBinary = .ok f ↔ cf = .binary f) ∧
    (∀ f, cf.tryIntoBool = .ok f ↔ cf = .bool f) ∧
    ((∀ f, cf ≠ .number f) →
      cf.tryIntoNumber = .error (.mismatchedFormatType "not a NumberFormat")) ∧
    ((∀ f, cf ≠ .string f) →
      cf.tryIntoString = .error (.mismatchedFormatType "not a StringFormat")) ∧
    ((∀ f, cf ≠ .binary f) →
      cf.tryIntoBinary = .error (.mismatchedFormatType "not a BinaryFormat")) ∧
    ((∀ f, cf ≠ .bool f) →
      cf.tryIntoBool = .error (.mismatchedFormatType "not a BoolFormat")) := by
  cases cf <;>
    simp [CellFormat.tryIntoNumber, CellFormat.tryIntoString,
      CellFormat.tryIntoBinary, CellFormat.tryIntoBool]

/-- C9 witness: the conversions evaluated on a concrete number format. -/
theorem c9_try_into_views_witness :
    CellFormat.tryIntoNumber (.number ⟨FormatType.decimal, 2, 3, 7⟩) =
      .ok ⟨FormatType.decimal, 2, 3, 7⟩ ∧
    CellFormat.tryIntoString (.number ⟨FormatType.decimal, 2, 3, 7⟩) =
      .error (.mismatchedFormatType "not a StringFormat") :=
  ⟨((c9_try_into_views (.number ⟨FormatType.decimal, 2, 3, 7⟩)).1 _).mpr rfl,
   (c9_try_into_views (.number ⟨FormatType.decimal, 2, 3, 7⟩)).2.2.2.2.2.1
     (fun f h => by cases h)⟩

/-- C10: `finalize` fails (with `UnsupportedDatatype`) exactly on the
`Unknown` shorthand with a data type that is none of Utf8, Boolean,
Binary, integer, or float; every concrete shorthand passes through
unchanged, and `Unknown` resolves integer dtypes to a decimal
`NumberFormat` with precision 0, float dtypes to an exponent one. -/
theorem c10_finalize (sh : CellFormatShorthand) (d : DataType) :
    ((sh.finalize d).isOk = false ↔ (∃ u, sh = .unknown u) ∧ d.cellSupported = false) ∧
    (∀ f, sh = .number f → sh.finalize d = .ok (.number f)) ∧
    (∀ f, sh = .binary f → sh.finalize d = .ok (.binary f)) ∧
    (∀ f, sh = .string f → sh.finalize d = .ok (.string f)) ∧
    (∀ f, sh = .bool f → sh.finalize d = .ok (.bool f)) ∧
    (∀ u, sh = .unknown u → d.isInteger = true →
      sh.finalize d = .ok (.number ((u.toNumber.withFormatType .decimal).withPrecision 0))) ∧
    (∀ u, sh = .unknown u → d.isFloat = true →
      sh.finalize d = .ok (.number (u.toNumber.withFormatType .exponent))) ∧
    (∀ u, sh = .unknown u → d.cellSupported = false →
      ∃ msg, sh.finalize d = .error (.unsupportedDatatype msg)) := by
  cases sh <;> cases d <;>
    simp [CellFormatShorthand.finalize, DataType.cellSupported,
      DataType.isInteger, DataType.isFloat, Except.isOk, Except.toBool]

/-- C10 witness: concrete resolutions of an unknown shorthand. -/
theorem c10_finalize_witness :
    CellFormatShorthand.finalize (.unknown ⟨2, 9⟩) .int32 =
      .ok (.number ⟨FormatType.decimal, 0, 2, 9⟩) ∧
    CellFormatShorthand.finalize (.unknown ⟨2, 9⟩) .float64 =
      .ok (.number ⟨FormatType.exponent, 6, 2, 9⟩) ∧
    (∃ msg, CellFormatShorthand.finalize (.unknown ⟨2, 9⟩) .date =
      .error (.unsupportedDatatype msg)) := by
  refine ⟨(c10_finalize (.unknown ⟨2, 9⟩) .int32).2.2.2.2.2.1 ⟨2, 9⟩ rfl rfl, ?_, ?_⟩
  · exact (c10_finalize (.unknown ⟨2, 9⟩) .float64).2.2.2.2.2.2.1 ⟨2, 9⟩ rfl rfl
  · exact (c10_finalize (.unknown ⟨2, 9⟩) .date).2.2.2.2.2.2.2 ⟨2, 9⟩ rfl rfl

/-- C1: for a negative finite input whose rendered numeric text parses
back to exactly 0, under the `NegativeOnly` sign policy (`-`, the parsed
default) and a non-radix type, the negative sign is discarded; in
particular rendering `-0.04` with pattern `.0f` yields `"0"`. -/
theorem c1_round_to_zero_sign_suppression :
    (∀ (s : FormatSpec) (x : F64) (v si : Str),
      coreVal s x = some (v, si) →
      s.format_type ∉
        ([some "b", some "o", some "O", some "x", some "X"] : List (Option String)) →
      x.neg = true →
      parseZero? v = some true →
      s.sign = some "-" →
      suppressedNeg s x v = some false ∧ signGlyph false s = []) ∧
    renderPattern ".0f".toList ⟨true, 4, 100⟩ = some "0".toList := by
  constructor
  · intro s x v si hcv hnr hneg hz hsign
    simp only [List.mem_cons, List.mem_singleton, not_or] at hnr
    constructor
    · simp [suppressedNeg, hnr.2.2.2.1, hnr.2.2.2.2, hneg, hz, hsign]
    · simp [signGlyph, hsign]
  · decide

/-- C1 witness: the suppression applied to the `.0f` specifier at the
input `-0.04` (rendered text `"0"`). -/
theorem c1_round_to_zero_sign_suppression_witness :
    coreVal f0Spec ⟨true, 4, 100⟩ = some ("0".toList, []) ∧
    suppressedNeg f0Spec ⟨true, 4, 100⟩ "0".toList = some false ∧
    signGlyph false f0Spec = [] :=
  ⟨by decide,
   (c1_round_to_zero_sign_suppression.1 f0Spec ⟨true, 4, 100⟩ "0".toList []
     (by decide) (by decide) rfl (by decide) rfl).1,
   (c1_round_to_zero_sign_suppression.1 f0Spec ⟨true, 4, 100⟩ "0".toList []
     (by decide) (by decide) rfl (by decide) rfl).2⟩

/-- C2 counterexample: for the binary radix type the zero-truncation
sign-suppression rule IS applied — rendering `-0.5` with pattern `b`
yields `"0"` with no `-` glyph, contradicting the claim that the rule is
never applied to radix types. -/
theorem c2_counterexample_binary_suppressed :
    parseSpec "b".toList = some bSpec ∧
    suppressedNeg bSpec ⟨true, 1, 2⟩ "0".toList = some false ∧
    renderPattern "b".toList ⟨true, 1, 2⟩ = some "0".toList ∧
    '-' ∉ "0".toList := by decide

/-- C2 amended: the suppression rule is skipped only for the hex types
(`x`, `X`), whose sign survives untouched; for the binary and octal types
a negative magnitude that truncates to 0 has its sign suppressed under
the `NegativeOnly` policy. -/
theorem c2_radix_sign_suppression_scope :
    (∀ (s : FormatSpec) (x : F64) (v : Str),
      (s.format_type = some "x" ∨ s.format_type = some "X") →
      suppressedNeg s x v = some x.neg) ∧
    (∀ s : FormatSpec, signGlyph true s = ['-']) ∧
    (∀ (s : FormatSpec) (x : F64),
      (s.format_type = some "b" ∨ s.format_type = some "o" ∨ s.format_type = some "O") →
      x.neg = true → x.num < x.den → s.sign = some "-" →
      coreVal s x = some (['0'], []) ∧ suppressedNeg s x ['0'] = some false) := by
  refine ⟨?_, ?_, ?_⟩
  · intro s x v h
    rcases h with h | h <;> simp [suppressedNeg, h]
  · intro s
    simp [signGlyph]
  · intro s x hft hneg hlt hsign
    have ht : truncSat x.num x.den = 0 := by
      simp [truncSat, Nat.div_eq_of_lt hlt]
    have hcv : coreVal s x = some (['0'], []) := by
      rcases hft with h | h | h <;> simp [coreVal, h, ht, toBaseStr]
    have hx : s.format_type ≠ some "x" := by rcases hft with h | h | h <;> simp [h]
    have hX : s.format_type ≠ some "X" := by rcases hft with h | h | h <;> simp [h]
    have hpz : parseZero? ['0'] = some true := by decide
    exact ⟨hcv, by simp [suppressedNeg, hx, hX, hneg, hpz, hsign]⟩

/-- C2 witness: hex keeps the sign of `-0.5` while binary suppresses it. -/
theorem c2_radix_sign_suppression_scope_witness :
    suppressedNeg xSpec ⟨true, 1, 2⟩ ['f'] = some true ∧
    signGlyph true xSpec = ['-'] ∧
    coreVal bSpec ⟨true, 1, 2⟩ = some (['0'], []) ∧
    suppressedNeg bSpec ⟨true, 1, 2⟩ ['0'] = some false :=
  ⟨c2_radix_sign_suppression_scope.1 xSpec ⟨true, 1, 2⟩ ['f'] (Or.inl rfl),
   c2_radix_sign_suppression_scope.2.1 xSpec,
   (c2_radix_sign_suppression_scope.2.2 bSpec ⟨true, 1, 2⟩ (Or.inl rfl) rfl
     (by decide) rfl).1,
   (c2_radix_sign_suppression_scope.2.2 bSpec ⟨true, 1, 2⟩ (Or.inl rfl) rfl
     (by decide) rfl).2⟩

/-- C6 counterexample: with the alternate form and the uppercase-octal
type `O`, the prepended prefix is `"0O"`, not the canonical `"0o"` the
claim requires — rendering `8.0` with pattern `#O` yields `"0O10"`. -/
theorem c6_counterexample_uppercase_octal :
    parseSpec "#O".toList = some hashOSpec ∧
    leadingPart hashOSpec = "0O".toList ∧
    renderPattern "#O".toList ⟨false, 8, 1⟩ = some "0O10".toList ∧
    "0O".toList ≠ "0o".toList := by decide

/-- C6 amended: with the alternate form, types `b`, `o`, `x` get their
canonical prefixes and the uppercase-hex type `X` keeps the lowercase
`0x`; the uppercase-octal type `O`, however, gets the prefix `0O`.  In
particular `#x` on 255 yields `"0xff"` and `#X` yields `"0xFF"`. -/
theorem c6_alternate_form_radix_prefixes :
    (∀ s : FormatSpec, s.symbol = some "#" →
      (s.format_type = some "b" → leadingPart s = "0b".toList) ∧
      (s.format_type = some "o" → leadingPart s = "0o".toList) ∧
      (s.format_type = some "x" → leadingPart s = "0x".toList) ∧
      (s.format_type = some "X" → leadingPart s = "0x".toList) ∧
      (s.format_type = some "O" → leadingPart s = "0O".toList)) ∧
    renderPattern "#x".toList ⟨false, 255, 1⟩ = some "0xff".toList ∧
    renderPattern "#X".toList ⟨false, 255, 1⟩ = some "0xFF".toList := by
  refine ⟨?_, by decide, by decide⟩
  intro s hsym
  refine ⟨?_, ?_, ?_, ?_, ?_⟩ <;> intro hft <;> simp [leadingPart, hsym, hft]

/-- C6 witness: the prefix table evaluated on the `#o` specifier. -/
theorem c6_alternate_form_radix_prefixes_witness :
    leadingPart hashoSpec = "0o".toList :=
  (c6_alternate_form_radix_prefixes.1 hashoSpec rfl).2.1 rfl

/-- C8 counterexample: the input `-0.0` is finite and `≥ 0`, yet with the
hex type under the `NegativeOnly` policy the output is `"-0"`, which
contains a `-` sign glyph. -/
theorem c8_counterexample_negative_zero_hex :
    renderPattern "x".toList ⟨true, 0, 1⟩ = some "-0".toList ∧
    (0 : ℚ) ≤ F64.val ⟨true, 0, 1⟩ ∧
    '-' ∈ "-0".toList := by
  refine ⟨by decide, ?_, by decide⟩
  simp [F64.val]

/-- C8 amended: for every finite input whose sign bit is clear (which
excludes negative zero) and every specifier with the `NegativeOnly`
policy, the value is not treated as negative and the selected sign glyph
is empty. -/
theorem c8_nonnegative_no_minus_glyph (s : FormatSpec) (x : F64)
    (hneg : x.neg = false) (hsign : s.sign = some "-") :
    (∀ v, suppressedNeg s x v = some false) ∧ signGlyph false s = [] := by
  constructor
  · intro v
    simp [suppressedNeg, hneg]
  · simp [signGlyph, hsign]

/-- C8 witness: the empty sign glyph on the hex specifier at `+0.0`. -/
theorem c8_nonnegative_no_minus_glyph_witness :
    suppressedNeg xSpec ⟨false, 0, 1⟩ ['0'] = some false ∧
    signGlyph false xSpec = [] :=
  ⟨(c8_nonnegative_no_minus_glyph xSpec ⟨false, 0, 1⟩ rfl rfl).1 ['0'],
   (c8_nonnegative_no_minus_glyph xSpec ⟨false, 0, 1⟩ rfl rfl).2⟩

/-- C5: grouping without zero-fill inserts separators before padding is
computed (at width 7 the grouped `1,234` leaves only two fills); grouping
with zero-fill is deferred — the integer part is zero-padded to the width
budget and the separators then land inside the padding (pattern `012,.2f`
on `1234.5` gives `0,001,234.50`), with no separate fill string emitted
afterwards, whatever the alignment; and `,.0f` on `1234567` yields
`1,234,567`. -/
theorem c5_grouping_order :
    renderPattern ",.0f".toList ⟨false, 1234567, 1⟩ = some "1,234,567".toList ∧
    renderPattern "7,.0f".toList ⟨false, 1234, 1⟩ = some "  1,234".toList ∧
    renderPattern "012,.2f".toList ⟨false, 12345, 10⟩ = some "0,001,234.50".toList ∧
    (∀ (s : FormatSpec) (x : F64) (pre v suf : Str) (w : ℕ) (f : Char),
      stage1 s x = some (pre, v, suf) →
      s.grouping.isSome = true → s.zero = true →
      s.width = some w → s.fill = some f →
      renderOpt s x = some (pre ++
        groupValue
          (List.replicate (w - (byteLen pre + byteLen v + byteLen suf)) f ++ v)
          (if byteLen pre + byteLen v + byteLen suf < w then w - byteLen suf else 0) ++
        suf)) := by
  refine ⟨by decide, by decide, by decide, ?_⟩
  intro s x pre v suf w f h1 hg hz hw hf
  have hgz : (s.grouping.isSome = true ∧ s.zero = true) := ⟨hg, hz⟩
  simp only [renderOpt, h1, hw, hf, Option.bind_eq_bind, Option.some_bind]
  rw [if_pos hgz]
  by_cases hlen : byteLen pre + byteLen v + byteLen suf < w
  · have hpad : (List.replicate (w - (byteLen pre + byteLen v + byteLen suf)) f) ≠ [] := by
      simp only [ne_eq, List.replicate_eq_nil_iff]
      omega
    have hsuf : byteLen suf ≤ w := by omega
    simp only [if_pos hlen, if_pos hpad, if_pos hsuf, Option.some_bind]
    unfold assemble
    by_cases ha1 : s.align = some "<"
    · simp [ha1]
    · by_cases ha2 : s.align = some "="
      · simp [ha1, ha2]
      · by_cases ha3 : s.align = some "^"
        · simp [ha1, ha2, ha3, splitAtByte, byteLen]
        · simp [ha1, ha2, ha3]
  · have hz0 : w - (byteLen pre + byteLen v + byteLen suf) = 0 := by omega
    simp only [if_neg hlen, hz0, List.replicate_zero, ne_eq, not_true_eq_false,
      List.nil_append, if_false, Option.some_bind]
    unfold assemble
    by_cases ha1 : s.align = some "<"
    · simp [ha1]
    · by_cases ha2 : s.align = some "="
      · simp [ha1, ha2]
      · by_cases ha3 : s.align = some "^"
        · simp [ha1, ha2, ha3, splitAtByte, byteLen]
        · simp [ha1, ha2, ha3]

/-- C5 witness: the deferred-grouping equation applied to the `08,.0f`
specifier at input `1234`. -/
theorem c5_grouping_order_witness :
    renderOpt zgSpec ⟨false, 1234, 1⟩ = some ("".toList ++
      groupValue
        (List.replicate (8 - (byteLen "".toList + byteLen "1234".toList +
          byteLen "".toList)) '0' ++ "1234".toList)
        (if byteLen "".toList + byteLen "1234".toList + byteLen "".toList < 8
         then 8 - byteLen "".toList else 0) ++ "".toList) :=
  c5_grouping_order.2.2.2 zgSpec ⟨false, 1234, 1⟩ "".toList "1234".toList "".toList 8 '0'
    (by decide) rfl rfl rfl rfl

/-- C4 counterexample: with zero-fill and grouping (pattern `08,.0f`,
width 8) the natural rendering of `1234` is 4 characters, shorter than
the width, yet the output `0,001,234` has length 9, not 8. -/
theorem c4_counterexample_zero_grouping_overflow :
    parseSpec "08,.0f".toList = some zgSpec ∧
    stage1 zgSpec ⟨false, 1234, 1⟩ = some ([], "1234".toList, []) ∧
    byteLen [] + byteLen "1234".toList + byteLen [] < 8 ∧
    renderOpt zgSpec ⟨false, 1234, 1⟩ = some "0,001,234".toList ∧
    byteLen "0,001,234".toList ≠ 8 := by decide

/-- C4 amended: the exact-width guarantee holds for every alignment
provided grouping and zero-fill are not both requested (the deferred
grouping can overflow the width) and the fill character is a single
byte: any output produced for a natural rendering shorter than `w` has
byte length exactly `w`. -/
theorem c4_width_filled_exactly (s : FormatSpec) (x : F64) (pre v suf out : Str)
    (w : ℕ) (f : Char)
    (h1 : stage1 s x = some (pre, v, suf))
    (hw : s.width = some w) (hf : s.fill = some f)
    (hng : ¬ (s.grouping.isSome = true ∧ s.zero = true))
    (hfb : utf8Len f = 1)
    (hlen : byteLen pre + byteLen v + byteLen suf < w)
    (hout : renderOpt s x = some out) :
    byteLen out = w := by
  simp only [renderOpt, h1, hw, hf, Option.bind_eq_bind, Option.some_bind] at hout
  rw [if_neg hng] at hout
  simp only [if_pos hlen] at hout
  have hbpad : byteLen (List.replicate (w - (byteLen pre + byteLen v + byteLen suf)) f) =
      w - (byteLen pre + byteLen v + byteLen suf) := by
    rw [byteLen_replicate, hfb, mul_one]
  unfold assemble at hout
  by_cases ha1 : s.align = some "<"
  · rw [if_pos ha1] at hout
    cases hout
    simp only [byteLen_append, hbpad]
    omega
  · rw [if_neg ha1] at hout
    by_cases ha2 : s.align = some "="
    · rw [if_pos ha2] at hout
      cases hout
      simp only [byteLen_append, hbpad]
      omega
    · rw [if_neg ha2] at hout
      by_cases ha3 : s.align = some "^"
      · rw [if_pos ha3] at hout
        rcases Option.map_eq_some'.mp hout with ⟨lr, hsplit, hoeq⟩
        have hlr := splitAtByte_append hsplit
        have : byteLen (lr.1 ++ lr.2) =
            w - (byteLen pre + byteLen v + byteLen suf) := by
          rw [hlr, hbpad]
        rw [byteLen_append] at this
        cases hoeq
        simp only [byteLen_append]
        omega
      · rw [if_neg ha3] at hout
        cases hout
        simp only [byteLen_append, hbpad]
        omega

/-- C4 witness: an exactly-filled render — pattern `7,.0f` on `1234`
gives the 7-byte output `  1,234`. -/
theorem c4_width_filled_exactly_witness :
    byteLen "  1,234".toList = 7 :=
  c4_width_filled_exactly
    { fill := some ' ', align := none, sign := some "-", symbol := none, zero := false,
      width := some 7, grouping := some ",", precision := some 0, format_type := some "f" }
    ⟨false, 1234, 1⟩ [] "1,234".toList [] "  1,234".toList 7 ' '
    (by decide) rfl rfl (by decide) (by decide) (by decide) (by decide)

theorem siCond_iff (k : ℤ) (n d : ℕ) (hd : 0 < d) :
    siCond k n d = true ↔ (1000:ℚ)^k ≤ (n:ℚ)/(d:ℚ) := by
  have hd0 : (0:ℚ) < (d:ℚ) := by exact_mod_cast hd
  unfold siCond
  by_cases hk : 0 ≤ k
  · rw [if_pos hk, le_div_iff₀ hd0]
    have hpow : (1000:ℚ)^k = ((1000 ^ k.toNat : ℕ) : ℚ) := by
      push_cast
      rw [← zpow_natCast]
      congr 1
      omega
    rw [hpow]
    simp only [decide_eq_true_eq]
    exact_mod_cast Iff.rfl
  · rw [if_neg hk, le_div_iff₀ hd0]
    have hpow : (1000:ℚ)^k = ((1000:ℚ) ^ ((-k).toNat))⁻¹ := by
      rw [← zpow_natCast, ← zpow_neg]
      congr 1
      omega
    have hp : (0:ℚ) < (1000:ℚ) ^ ((-k).toNat) := by positivity
    rw [hpow, inv_mul_le_iff₀ hp]
    simp only [decide_eq_true_eq]
    constructor
    · intro h
      calc (d:ℚ) ≤ ((n * 1000 ^ (-k).toNat : ℕ) : ℚ) := by exact_mod_cast h
        _ = (1000:ℚ) ^ ((-k).toNat) * n := by push_cast; ring
    · intro h
      have : (d:ℚ) ≤ ((n * 1000 ^ (-k).toNat : ℕ) : ℚ) := by
        calc (d:ℚ) ≤ (1000:ℚ) ^ ((-k).toNat) * n := h
          _ = ((n * 1000 ^ (-k).toNat : ℕ) : ℚ) := by push_cast; ring
      exact_mod_cast this

theorem siExpAux_eq (n d : ℕ) (hd : 0 < d) (k : ℤ)
    (h1 : (1000:ℚ)^k ≤ (n:ℚ)/(d:ℚ)) (h2 : (n:ℚ)/(d:ℚ) < (1000:ℚ)^(k+1))
    (h3 : -8 ≤ k) :
    ∀ m : ℕ, k ≤ (m:ℤ) - 8 → siExpAux n d m = k := by
  intro m
  induction m with
  | zero =>
    intro hm
    simp only [siExpAux]
    omega
  | succ m ih =>
    intro hm
    simp only [siExpAux]
    by_cases hc : siCond ((m:ℤ) - 7) n d = true
    · rw [if_pos hc]
      have hcq := (siCond_iff _ _ _ hd).mp hc
      by_cases hkm : k = (m:ℤ) - 7
      · omega
      · exfalso
        have hlt : k + 1 ≤ (m:ℤ) - 7 := by push_cast at hm ⊢; omega
        have : (1000:ℚ)^(k+1) ≤ (1000:ℚ)^((m:ℤ)-7) :=
          zpow_le_zpow_right₀ (by norm_num) hlt
        linarith
    · rw [if_neg hc]
      have hknm : k ≠ (m:ℤ) - 7 := fun he =>
        hc ((siCond_iff _ _ _ hd).mpr (he ▸ h1))
      exact ih (by push_cast at hm ⊢; omega)

theorem siExp_clamp_low (n d : ℕ) (hd : 0 < d)
    (h : (n:ℚ)/(d:ℚ) < (1000:ℚ)^(-8:ℤ)) : siExp n d = -8 := by
  have haux : ∀ m : ℕ, siExpAux n d m = -8 := by
    intro m
    induction m with
    | zero => rfl
    | succ m ih =>
      simp only [siExpAux]
      have hc : ¬ siCond ((m:ℤ) - 7) n d = true := by
        intro hc
        have h1 := (siCond_iff _ _ _ hd).mp hc
        have h2 : (1000:ℚ)^((m:ℤ)-7) < (1000:ℚ)^(-8:ℤ) := lt_of_le_of_lt h1 h
        have h3 : ((m:ℤ) - 7) < -8 :=
          (zpow_lt_zpow_iff_right₀ (by norm_num : (1:ℚ) < 1000)).mp h2
        omega
      rw [if_neg hc]
      exact ih
  exact haux 16

theorem siExp_clamp_high (n d : ℕ) (hd : 0 < d)
    (h : (1000:ℚ)^(8:ℤ) ≤ (n:ℚ)/(d:ℚ)) : siExp n d = 8 := by
  have hc : siCond (((15:ℕ):ℤ) - 7) n d = true := by
    rw [show (((15:ℕ):ℤ) - 7) = (8:ℤ) by norm_num, siCond_iff _ _ _ hd]
    exact h
  have hstep : siExpAux n d 16 =
      if siCond (((15:ℕ):ℤ) - 7) n d then ((15:ℕ):ℤ) - 7 else siExpAux n d 15 := rfl
  unfold siExp
  rw [hstep, if_pos hc]
  norm_num

theorem prefixes_get_of_range (k : ℤ) (h3 : -8 ≤ k) (h4 : k ≤ 8) :
    ∃ letter, PREFIXES.get? (8 + k).toNat = some letter := by
  have hlt : (8 + k).toNat < PREFIXES.length := by
    simp only [PREFIXES, List.length]
    omega
  exact ⟨_, List.get?_eq_get hlt⟩

theorem renderOpt_siSpec (p : ℕ) (x : F64) (hneg : x.neg = false) (letter : Str)
    (hlet : PREFIXES.get? (8 + (siExp x.num x.den)).toNat = some letter) :
    renderOpt (siSpec p) x = some ((formatSi x.num x.den (some p)).1 ++ letter) := by
  have hsnd : (formatSi x.num x.den (some p)).2 = siExp x.num x.den := rfl
  have hcv : coreVal (siSpec p) x = some ((formatSi x.num x.den (some p)).1, letter) := by
    simp only [coreVal, siSpec]
    simp +decide only [if_true, if_false]
    rw [hsnd, hlet]
    rfl
  have hsup : suppressedNeg (siSpec p) x (formatSi x.num x.den (some p)).1 = some false := by
    simp [suppressedNeg, hneg]
  simp only [renderOpt, stage1, hcv, Option.bind_eq_bind, Option.some_bind, hsup,
    Option.pure_def]
  simp +decide only [siSpec, signGlyph, leadingPart, assemble, byteLen,
    Option.some_bind, Option.isSome_none, Bool.false_and, if_false, if_true,
    List.nil_append, List.append_nil, Nat.not_lt_zero, Option.some.injEq, false_and]
  rw [← List.append_assoc, List.takeWhile_append_dropWhile]

/-- C7: the SI type scales the magnitude into its power-of-1000 bucket
(the largest `k ∈ [-8,8]` with `1000^k ≤ |x|`), renders the scaled
mantissa fixed-point with the configured precision, appends the prefix
letter found at table offset `8 + k` as a unit suffix, clamps
out-of-range magnitudes to the table ends, and `render(".2s", 1234000)`
yields `"1.23M"`. -/
theorem c7_si_prefix_scaling :
    renderPattern ".2s".toList ⟨false, 1234000, 1⟩ = some "1.23M".toList ∧
    (∀ (x : F64) (p : ℕ) (k : ℤ), x.neg = false → 0 < x.den →
      -8 ≤ k → k ≤ 8 →
      (1000:ℚ)^k ≤ (x.num:ℚ)/(x.den:ℚ) →
      (x.num:ℚ)/(x.den:ℚ) < (1000:ℚ)^(k+1) →
      siExp x.num x.den = k ∧
      ∃ letter, PREFIXES.get? (8 + k).toNat = some letter ∧
        renderOpt (siSpec p) x = some ((formatSi x.num x.den (some p)).1 ++ letter)) ∧
    (∀ x : F64, 0 < x.den → (1000:ℚ)^(8:ℤ) ≤ (x.num:ℚ)/(x.den:ℚ) →
      siExp x.num x.den = 8) ∧
    (∀ x : F64, 0 < x.den → (x.num:ℚ)/(x.den:ℚ) < (1000:ℚ)^(-8:ℤ) →
      siExp x.num x.den = -8) := by
  refine ⟨by decide, ?_, ?_, ?_⟩
  · intro x p k hneg hd h3 h4 h1 h2
    have hk : siExp x.num x.den = k :=
      siExpAux_eq x.num x.den hd k h1 h2 h3 16 (by omega)
    rcases prefixes_get_of_range k h3 h4 with ⟨letter, hlet⟩
    exact ⟨hk, letter, hlet, renderOpt_siSpec p x hneg letter (by rw [hk]; exact hlet)⟩
  · intro x hd h
    exact siExp_clamp_high x.num x.den hd h
  · intro x hd h
    exact siExp_clamp_low x.num x.den hd h

/-- C7 witness: the bucket equation applied at `1234000` with `k = 2`
(the mega bucket) and precision 2. -/
theorem c7_si_prefix_scaling_witness :
    siExp 1234000 1 = 2 ∧
    ∃ letter, PREFIXES.get? (8 + 2 : ℤ).toNat = some letter ∧
      renderOpt (siSpec 2) ⟨false, 1234000, 1⟩ =
        some ((formatSi 1234000 1 (some 2)).1 ++ letter) :=
  c7_si_prefix_scaling.2.1 ⟨false, 1234000, 1⟩ 2 2 rfl (by norm_num)
    (by norm_num) (by norm_num)
    (by norm_num)
    (by norm_num)

/-- C3: the renderer evaluated at the failing input — the well-formed
resolved specifier of the pattern `é^4.0f` (every field concrete) on the
finite input `1.0` slices the padding `ééé` at byte 3, inside the
two-byte fill character, so the render panics (`none`) instead of
returning a string: the renderer is not a total function. -/
theorem c3_renderer_panics_on_multibyte_fill :
    parseSpec "é^4.0f".toList = some eCenterSpec ∧
    eCenterSpec.precision.isSome = true ∧
    eCenterSpec.width.isSome = true ∧
    eCenterSpec.fill.isSome = true ∧
    renderOpt eCenterSpec ⟨false, 1, 1⟩ = none ∧
    renderPattern "é^4.0f".toList ⟨false, 1, 1⟩ = none := by decide

end Etop
